import Mathlib

/-!
Verification of the ticket-reservation backend (`src/server.js` and the
server variants concatenated in `src/models/tickets.js`).

The JavaScript request handlers are shallowly embedded: JSON-primitive
request values become the inductive `JsPrim`, JS numbers become `JsNum`
(exact rationals plus `NaN`/`±Infinity`; IEEE rounding is not modelled, no
claim here depends on it), and the route handlers become pure functions
with the Mongo collection passed as an explicit list.  Request bodies are
modelled with primitive field values (arrays/objects as field values are
out of scope of every claim).
-/

/-- A JavaScript number: an exact rational, or one of the non-finite
values.  (`-0` is identified with `0`; no claim distinguishes them.) -/
inductive JsNum where
  | finite (q : ℚ)
  | nan
  | inf
  | negInf
deriving DecidableEq, Repr

/-- A JSON-primitive JavaScript value as it appears in a parsed request
body field (`req.body.x`); `undefined` is an absent field. -/
inductive JsPrim where
  | undefined
  | null
  | bool (b : Bool)
  | num (n : JsNum)
  | str (s : String)
deriving DecidableEq, Repr

/-- The JS whitespace class `\s` (also used by `String.prototype.trim`):
tab, LF, VT, FF, CR, space, NBSP, the Unicode space separators, line and
paragraph separators, and the BOM. -/
def jsWhitespace (c : Char) : Bool :=
  c = ' ' || c = '\t' || c = '\n' || c = Char.ofNat 0x0B || c = Char.ofNat 0x0C ||
  c = '\r' || c = Char.ofNat 0xA0 || c = Char.ofNat 0x1680 ||
  (Char.ofNat 0x2000 ≤ c && c ≤ Char.ofNat 0x200A) ||
  c = Char.ofNat 0x2028 || c = Char.ofNat 0x2029 || c = Char.ofNat 0x202F ||
  c = Char.ofNat 0x205F || c = Char.ofNat 0x3000 || c = Char.ofNat 0xFEFF

/-- JS truthiness of a primitive value (`!x` is `!truthy x`). -/
def truthy : JsPrim → Bool
  | .undefined => false
  | .null => false
  | .bool b => b
  | .num (.finite q) => q ≠ 0
  | .num .nan => false
  | .num .inf => true
  | .num .negInf => true
  | .str s => s ≠ ""

/-- `typeof x === 'string'`. -/
def isStringPrim : JsPrim → Bool
  | .str _ => true
  | _ => false

/-- `String.prototype.trim`: strip JS whitespace from both ends. -/
def jsTrim (s : String) : String :=
  String.mk (((s.data.dropWhile jsWhitespace).reverse.dropWhile jsWhitespace).reverse)

/-- Digit list to a natural number (decimal). -/
def digitsToNat (l : List Char) : Nat :=
  l.foldl (fun a c => a * 10 + (c.toNat - 48)) 0

/-- Parse an optional exponent suffix (`e`/`E`, optional sign, digits) that
must consume the whole remaining input; returns the power-of-ten factor. -/
def parseExpSuffix (l : List Char) : Option ℚ :=
  match l with
  | [] => some 1
  | 'e' :: r | 'E' :: r =>
    let core : List Char → Option ℚ := fun d =>
      if d.isEmpty || !d.all Char.isDigit then none
      else some ((10 : ℚ) ^ digitsToNat d)
    match r with
    | '+' :: d => core d
    | '-' :: d => (core d).map (·⁻¹)
    | d => core d
  | _ => none

/-- Parse an unsigned decimal numeric literal (`D+ (. D*)? | . D+`, optional
exponent), full match. -/
def parseDec (l : List Char) : Option ℚ :=
  let ip := l.takeWhile Char.isDigit
  let r1 := l.dropWhile Char.isDigit
  let finish : List Char → List Char → List Char → Option ℚ := fun ipart fpart rest =>
    if ipart.isEmpty && fpart.isEmpty then none
    else
      (parseExpSuffix rest).map (fun e =>
        ((digitsToNat ipart : ℚ) + (digitsToNat fpart : ℚ) / (10 : ℚ) ^ fpart.length) * e)
  match r1 with
  | '.' :: r2 => finish ip (r2.takeWhile Char.isDigit) (r2.dropWhile Char.isDigit)
  | _ => finish ip [] r1

/-- Hexadecimal digit value. -/
def hexDigitVal (c : Char) : Option Nat :=
  if '0' ≤ c && c ≤ '9' then some (c.toNat - 48)
  else if 'a' ≤ c && c ≤ 'f' then some (c.toNat - 87)
  else if 'A' ≤ c && c ≤ 'F' then some (c.toNat - 55)
  else none

/-- Binary/octal digit value for radix `b`. -/
def radixDigitVal (b : Nat) (c : Char) : Option Nat :=
  if '0' ≤ c && c.toNat < 48 + b then some (c.toNat - 48) else none

/-- Parse a nonempty all-digits radix literal body. -/
def parseRadix (b : Nat) (dv : Char → Option Nat) (l : List Char) : Option ℚ :=
  if l.isEmpty then none
  else l.foldl (fun acc c =>
    match acc, dv c with
    | some a, some d => some (a * (b : ℚ) + (d : ℚ))
    | _, _ => none) (some 0)

/-- Parse a decimal literal or the `Infinity` keyword (the only forms that
may carry a sign in a JS numeric string). -/
def parseDecOrInf (l : List Char) : Option JsNum :=
  if l = "Infinity".data then some .inf
  else (parseDec l).map .finite

/-- Negate a JS number. -/
def negNum : JsNum → JsNum
  | .finite q => .finite (-q)
  | .nan => .nan
  | .inf => .negInf
  | .negInf => .inf

/-- Parse an unsigned numeric string body: `0x`/`0o`/`0b` radix literals,
decimal literals, or `Infinity`. -/
def parseUnsigned (l : List Char) : Option JsNum :=
  match l with
  | '0' :: 'x' :: r | '0' :: 'X' :: r => (parseRadix 16 hexDigitVal r).map .finite
  | '0' :: 'o' :: r | '0' :: 'O' :: r => (parseRadix 8 (radixDigitVal 8) r).map .finite
  | '0' :: 'b' :: r | '0' :: 'B' :: r => (parseRadix 2 (radixDigitVal 2) r).map .finite
  | _ => parseDecOrInf l

/-- JS string-to-number conversion (`Number(s)` on a string): trim, empty
string is `0`, otherwise the whole remainder must be a numeric literal
(optionally signed decimal/`Infinity`, or an unsigned radix literal),
else `NaN`. -/
def strToNumber (s : String) : JsNum :=
  let t := (jsTrim s).data
  if t.isEmpty then .finite 0
  else
    match t with
    | '+' :: r => (parseDecOrInf r).getD .nan
    | '-' :: r => ((parseDecOrInf r).map negNum).getD .nan
    | _ => (parseUnsigned t).getD .nan

/-- `Number(x)` on a primitive value. -/
def toNumber : JsPrim → JsNum
  | .undefined => .nan
  | .null => .finite 0
  | .bool b => .finite (if b then 1 else 0)
  | .num n => n
  | .str s => strToNumber s

/-- `Number.isFinite` on a JS number. -/
def isFiniteNum : JsNum → Bool
  | .finite _ => true
  | _ => false

/-- JS `<` against a rational constant (`NaN` compares false). -/
def numLtQ : JsNum → ℚ → Bool
  | .finite q, c => decide (q < c)
  | .nan, _ => false
  | .inf, _ => false
  | .negInf, _ => true

/-- JS `>` against a rational constant (`NaN` compares false). -/
def numGtQ : JsNum → ℚ → Bool
  | .finite q, c => decide (q > c)
  | .nan, _ => false
  | .inf, _ => true
  | .negInf, _ => false

/-- JS `>=` against a rational constant (`NaN` compares false). -/
def numGeQ : JsNum → ℚ → Bool
  | .finite q, c => decide (q ≥ c)
  | .nan, _ => false
  | .inf, _ => true
  | .negInf, _ => false

/-- JS `<=` against a rational constant (`NaN` compares false). -/
def numLeQ : JsNum → ℚ → Bool
  | .finite q, c => decide (q ≤ c)
  | .nan, _ => false
  | .inf, _ => false
  | .negInf, _ => true

/-- Rendering of a JS number to a string.  For non-integral rationals this
is a placeholder rendering (exact IEEE double formatting is not modelled);
no claim in this development depends on its exact text. -/
def numToString : JsNum → String
  | .nan => "NaN"
  | .inf => "Infinity"
  | .negInf => "-Infinity"
  | .finite q => if q.den = 1 then toString q.num else toString q.num ++ "/" ++ toString q.den

/-- `String(x)` on a primitive value. -/
def jsToString : JsPrim → String
  | .undefined => "undefined"
  | .null => "null"
  | .bool b => if b then "true" else "false"
  | .num n => numToString n
  | .str s => s

/-- A character matching the regex class `[^\s@]`. -/
def isGoodChar (c : Char) : Bool :=
  !(jsWhitespace c) && c ≠ '@'

/-- `l` has a `'.'` that is neither its first nor its last element. -/
def hasInteriorDot (l : List Char) : Bool :=
  ((l.drop 1).dropLast).contains '.'

/-- Core of `/^[^\s@]+@[^\s@]+\.[^\s@]+$/` on a character list.  Since the
class `[^\s@]` excludes `'@'`, the local part must be the maximal good-char
prefix, followed by a literal `'@'`; the domain `[^\s@]+\.[^\s@]+` matches
exactly the nonempty all-good-char lists with a dot at an interior
position (the class includes `'.'`, so the split point is any interior
dot). -/
def emailRegexCore (l : List Char) : Bool :=
  match l.dropWhile isGoodChar with
  | '@' :: dom => !((l.takeWhile isGoodChar).isEmpty) && dom.all isGoodChar && hasInteriorDot dom
  | _ => false

/-- The email test `/^[^\s@]+@[^\s@]+\.[^\s@]+$/.test(s)` from both
validators (`src/server.js` line 90, `src/models/tickets.js` line 96). -/
def emailRegexMatch (s : String) : Bool :=
  emailRegexCore s.data

/-- The fixed ticket-category list (`src/server.js` lines 46–54). -/
def allowedTickets : List String :=
  ["GA Pass", "GA Pass + Parking", "VIP Pass", "1st Day Ticket",
   "2nd Day Ticket", "Weekend Parking Pass", "Single Day Parking"]

/-- `allowedTickets.includes(x)` on a primitive value (`Array.includes`
uses SameValueZero, so only a string can be found in a string list). -/
def ticketIncludes : JsPrim → Bool
  | .str s => allowedTickets.contains s
  | _ => false

/-- A destructured `req.body` for `POST /api/tickets`. -/
structure Submission where
  firstName : JsPrim
  lastName : JsPrim
  email : JsPrim
  ticketType : JsPrim
  quantity : JsPrim
  notes : JsPrim
deriving DecidableEq, Repr

/-- The quantity condition of `src/server.js` lines 95–97:
`qtyNum = Number(quantity)` must be finite and not `< 1` and not `> 20`. -/
def quantityOk (q : JsPrim) : Bool :=
  let qtyNum := toNumber q
  isFiniteNum qtyNum && !(numLtQ qtyNum 1) && !(numGtQ qtyNum 20)

/-- The validation block of `src/server.js` lines 86–98: each failed check
pushes its message onto `errors`, in source order. -/
def validateTicket (b : Submission) : List String :=
  (if truthy b.firstName then [] else ["firstName is required"]) ++
  (if truthy b.lastName then [] else ["lastName is required"]) ++
  (if truthy b.email && emailRegexMatch (jsToString b.email) then [] else ["valid email is required"]) ++
  (if ticketIncludes b.ticketType then [] else ["invalid ticketType"]) ++
  (if quantityOk b.quantity then [] else ["quantity must be 1–20"])

/-- The quantity condition of the `src/models/tickets.js` variant
(line 98): `Number.isFinite(quantity) && quantity >= 1 && quantity <= 20`,
with no `Number()` coercion. -/
def quantityOkV (q : JsPrim) : Bool :=
  match q with
  | .num n => isFiniteNum n && numGeQ n 1 && numLeQ n 20
  | _ => false

/-- The email test of the variant, reached only behind its
`typeof email === 'string'` guard. -/
def emailTestV : JsPrim → Bool
  | .str s => emailRegexMatch s
  | _ => false

/-- The validation block of the first `src/models/tickets.js` variant
(lines 93–99): adds `typeof` checks on the text fields, a truthiness check
on `ticketType`, and tests `Number.isFinite` on the raw quantity.  Its
quantity message carries the mojibaked dash found in the source bytes. -/
def validateTicketV (b : Submission) : List String :=
  (if truthy b.firstName && isStringPrim b.firstName then [] else ["firstName is required"]) ++
  (if truthy b.lastName && isStringPrim b.lastName then [] else ["lastName is required"]) ++
  (if truthy b.email && isStringPrim b.email && emailTestV b.email then [] else ["valid email is required"]) ++
  (if truthy b.ticketType && ticketIncludes b.ticketType then [] else ["invalid ticketType"]) ++
  (if quantityOkV b.quantity then [] else ["quantity must be 1â€“20"])

/-- The per-rule outcome for `firstName` (`src/server.js` line 88). -/
def checkFirstName (b : Submission) : Option String :=
  if truthy b.firstName then none else some "firstName is required"

/-- The per-rule outcome for `lastName` (`src/server.js` line 89). -/
def checkLastName (b : Submission) : Option String :=
  if truthy b.lastName then none else some "lastName is required"

/-- The per-rule outcome for `email` (`src/server.js` lines 90–91). -/
def checkEmail (b : Submission) : Option String :=
  if truthy b.email && emailRegexMatch (jsToString b.email) then none
  else some "valid email is required"

/-- The per-rule outcome for `ticketType` (`src/server.js` lines 92–93). -/
def checkTicketType (b : Submission) : Option String :=
  if ticketIncludes b.ticketType then none else some "invalid ticketType"

/-- The per-rule outcome for `quantity` (`src/server.js` lines 95–97). -/
def checkQuantity (b : Submission) : Option String :=
  if quantityOk b.quantity then none else some "quantity must be 1–20"

/-- A JSON response of the `POST /api/tickets` handler. -/
inductive Response where
  | badRequest (message : String) (errors : List String)
  | created (message : String) (id : Nat)
  | serverError (message : String)
deriving DecidableEq, Repr

/-- The HTTP status carried by each response shape (`res.status(...)`). -/
def Response.statusCode : Response → Nat
  | .badRequest _ _ => 400
  | .created _ _ => 201
  | .serverError _ => 500

/-- Calling `.trim()` on a JS value: a `TypeError` (modelled as `none`)
unless the value is a string. -/
def trimStringPrim : JsPrim → Option String
  | .str s => some (jsTrim s)
  | _ => none

/-- `notes ?? ''`: nullish coalescing to the empty string. -/
def coalesceNotes : JsPrim → JsPrim
  | .undefined => .str ""
  | .null => .str ""
  | p => p

/-- The argument object of `Ticket.create` (`src/server.js` lines 105–112):
trimmed strings, the raw `ticketType`, and the coerced numeric quantity. -/
structure CreateInput where
  firstName : String
  lastName : String
  email : String
  ticketType : JsPrim
  quantity : JsNum
  notes : String
deriving DecidableEq, Repr

/-- Build the `Ticket.create` argument (`src/server.js` lines 105–112);
`none` models a thrown `TypeError` (`.trim()` on a non-string), which the
surrounding `try`/`catch` turns into a 500. -/
def buildCreateInput (b : Submission) : Option CreateInput :=
  match trimStringPrim b.firstName, trimStringPrim b.lastName,
        trimStringPrim b.email, trimStringPrim (coalesceNotes b.notes) with
  | some fn, some ln, some em, some nt =>
    some { firstName := fn, lastName := ln, email := em,
           ticketType := b.ticketType, quantity := toNumber b.quantity, notes := nt }
  | _, _, _, _ => none

/-- The mongoose setters declared by `ticketSchema` (`src/server.js`
lines 56–70): `trim: true` on the text fields and `lowercase: true` on
`email` (lower-casing and trimming commute on these setters, so one fixed
order is used). -/
def schemaApply (r : CreateInput) : CreateInput :=
  { r with firstName := jsTrim r.firstName, lastName := jsTrim r.lastName,
           email := String.toLower (jsTrim r.email), notes := jsTrim r.notes }

/-- The mongoose validators declared by `ticketSchema` (`src/server.js`
lines 56–70): `required` (a required string must be nonempty), the
`maxlength` bounds, the `ticketType` enum, and `min: 1, max: 20` on
`quantity`. -/
def storeValidate (r : CreateInput) : Bool :=
  (r.firstName != "" && decide (r.firstName.length ≤ 80)) &&
  (r.lastName != "" && decide (r.lastName.length ≤ 80)) &&
  (r.email != "" && decide (r.email.length ≤ 160)) &&
  ticketIncludes r.ticketType &&
  (numGeQ r.quantity 1 && numLeQ r.quantity 20) &&
  decide (r.notes.length ≤ 1000)

/-- The `POST /api/tickets` handler (`src/server.js` lines 82–119) with the
Mongo collection as explicit state: validation errors short-circuit to a
400 before `Ticket.create`; a thrown `.trim()` or a schema-rejected write
is caught and answered with a 500; a successful write appends the
setter-normalized record and answers 201 with its id. -/
def postTickets (b : Submission) (store : List CreateInput) : Response × List CreateInput :=
  let errors := validateTicket b
  if errors.isEmpty then
    match buildCreateInput b with
    | none => (.serverError "Error saving ticket", store)
    | some r =>
      let stored := schemaApply r
      if storeValidate stored then (.created "Saved" store.length, store ++ [stored])
      else (.serverError "Error saving ticket", store)
  else (.badRequest "Validation failed" errors, store)

/-- A document as read back for CSV export (`Ticket.find().lean()` in the
export variant of `src/models/tickets.js`); a field can be absent
(`undefined`) or `null`. -/
structure TicketDoc where
  createdAt : JsPrim
  firstName : JsPrim
  lastName : JsPrim
  email : JsPrim
  ticketType : JsPrim
  quantity : JsPrim
  notes : JsPrim
deriving DecidableEq, Repr

/-- The CSV field encoder (`src/models/tickets.js` lines 294–298):
`null`/`undefined` becomes the empty string, any other value is
stringified, every `"` is doubled (the global regex replace), and the
result is wrapped in double quotes. -/
def escape (v : JsPrim) : String :=
  match v with
  | .undefined => ""
  | .null => ""
  | p => "\"" ++ String.mk ((jsToString p).data.flatMap
      (fun c => if c = '"' then ['"', '"'] else [c])) ++ "\""

/-- `Array.prototype.join(sep)` on a list of strings. -/
def jsJoin (sep : String) : List String → String
  | [] => ""
  | [x] => x
  | x :: y :: ys => x ++ sep ++ jsJoin sep (y :: ys)

/-- The CSV header field list (`src/models/tickets.js` lines 284–292). -/
def csvHeaderFields : List String :=
  ["createdAt", "firstName", "lastName", "email", "ticketType", "quantity", "notes"]

/-- One CSV record row (`src/models/tickets.js` lines 300–308 joined at
line 312): the seven escaped fields joined by commas. -/
def csvRow (t : TicketDoc) : String :=
  jsJoin "," [escape t.createdAt, escape t.firstName, escape t.lastName,
              escape t.email, escape t.ticketType, escape t.quantity, escape t.notes]

/-- The CSV document (`src/models/tickets.js` lines 310–315): the joined
header line followed by one row per document, all joined by newlines. -/
def csvExport (docs : List TicketDoc) : String :=
  jsJoin "\n" (jsJoin "," csvHeaderFields :: docs.map csvRow)

/-- The `GET /api/health` response status (`res.json` answers 200). -/
def healthStatusCode : Nat := 200

/-- The `GET /api/health` response body (`src/server.js` lines 77–79) as
an ordered key/value list, from the mongoose `readyState`; the handler is
a pure function of the connection state. -/
def healthBody (readyState : Nat) : List (String × JsPrim) :=
  [("ok", .bool true), ("mongo", .bool (readyState == 1))]

/-- The spec's acceptance condition for an email string, read literally
from its words: exactly one `@`, nonempty all-non-whitespace text on both
sides, and a `.` somewhere in the domain part. -/
def specEmailClaim (s : String) : Bool :=
  let l := s.data
  let loc := l.takeWhile (fun c => c ≠ '@')
  let dom := (l.dropWhile (fun c => c ≠ '@')).drop 1
  (l.count '@' == 1) && !loc.isEmpty && !dom.isEmpty &&
  loc.all (fun c => !(jsWhitespace c)) && dom.all (fun c => !(jsWhitespace c)) &&
  dom.contains '.'

/-- The amended acceptance condition: as `specEmailClaim`, but the domain
dot must be neither the first nor the last character of the domain. -/
def specEmailAmended (s : String) : Bool :=
  let l := s.data
  let loc := l.takeWhile (fun c => c ≠ '@')
  let dom := (l.dropWhile (fun c => c ≠ '@')).drop 1
  (l.count '@' == 1) && !loc.isEmpty && !dom.isEmpty &&
  loc.all (fun c => !(jsWhitespace c)) && dom.all (fun c => !(jsWhitespace c)) &&
  hasInteriorDot dom

/-- The submission with every field absent. -/
def subAllUndef : Submission := ⟨.undefined, .undefined, .undefined, .undefined, .undefined, .undefined⟩

/-- A fully valid submission with a notes string that needs trimming. -/
def subValid : Submission :=
  ⟨.str "Jane", .str "Doe", .str "a@b.co", .str "GA Pass", .num (.finite 2), .str " note "⟩

/-- A valid submission whose email has upper-case letters. -/
def subValidUpperEmail : Submission :=
  ⟨.str "Jane", .str "Doe", .str "A@B.co", .str "GA Pass", .num (.finite 2), .undefined⟩

/-- The `Ticket.create` argument produced by `subValid`. -/
def subValidRec : CreateInput :=
  ⟨"Jane", "Doe", "a@b.co", .str "GA Pass", .finite 2, "note"⟩

/-- A submission whose `firstName` is whitespace-only. -/
def subWsFirstName : Submission :=
  ⟨.str "   ", .str "Doe", .str "a@b.co", .str "GA Pass", .num (.finite 2), .undefined⟩

/-- A submission whose `lastName` is whitespace-only. -/
def subWsLastName : Submission :=
  ⟨.str "Jane", .str "   ", .str "a@b.co", .str "GA Pass", .num (.finite 2), .undefined⟩

/-- A valid submission except that `quantity` is the string `"5"`. -/
def subStrQuantity : Submission :=
  ⟨.str "Jane", .str "Doe", .str "a@b.co", .str "GA Pass", .str "5", .undefined⟩

/-- A request field that is a string, `null`, or absent. -/
def strOrNullish (p : JsPrim) : Prop :=
  (∃ s, p = .str s) ∨ p = .null ∨ p = .undefined

/-- A request field that is a number, `null`, or absent. -/
def numOrNullish (p : JsPrim) : Prop :=
  (∃ n, p = .num n) ∨ p = .null ∨ p = .undefined

lemma foldlJoin_pre (sep pre y : String) (ys : List String) :
    pre ++ ys.foldl (fun acc r => acc ++ sep ++ r) y
      = ys.foldl (fun acc r => acc ++ sep ++ r) (pre ++ y) := by
  induction ys generalizing y with
  | nil => rfl
  | cons z zs ih =>
    simp only [List.foldl_cons]
    rw [ih, ← String.append_assoc, ← String.append_assoc]

lemma jsJoin_cons_foldl (sep h : String) (t : List String) :
    jsJoin sep (h :: t) = t.foldl (fun acc r => acc ++ sep ++ r) h := by
  induction t generalizing h with
  | nil => rfl
  | cons y ys ih =>
    show h ++ sep ++ jsJoin sep (y :: ys) = _
    rw [ih y, foldlJoin_pre, List.foldl_cons]

lemma csvRow_mem_comma (t : TicketDoc) : ',' ∈ (csvRow t).data := by
  simp [csvRow, jsJoin, String.data_append]

lemma validateTicket_eq_filterMap (b : Submission) :
    validateTicket b = [checkFirstName b, checkLastName b, checkEmail b,
      checkTicketType b, checkQuantity b].filterMap id := by
  unfold validateTicket checkFirstName checkLastName checkEmail checkTicketType checkQuantity
  cases truthy b.firstName <;> cases truthy b.lastName <;>
    cases truthy b.email && emailRegexMatch (jsToString b.email) <;>
    cases ticketIncludes b.ticketType <;> cases quantityOk b.quantity <;> rfl

lemma postTickets_of_errors (b : Submission) (st : List CreateInput)
    (h : validateTicket b ≠ []) :
    postTickets b st = (.badRequest "Validation failed" (validateTicket b), st) := by
  have he : (validateTicket b).isEmpty = false := by
    cases hv : validateTicket b with
    | nil => exact absurd hv h
    | cons a l => rfl
  simp [postTickets, he]

lemma dropWhile_head_false {α : Type} {p : α → Bool} :
    ∀ {l : List α} {a : α} {t : List α}, l.dropWhile p = a :: t → p a = false
  | [], a, t, h => by simp at h
  | x :: xs, a, t, h => by
    rw [List.dropWhile_cons] at h
    split at h
    · exact dropWhile_head_false h
    · cases h
      simpa using ‹¬ (p x = true)›

lemma emailCore_main (l : List Char) :
    emailRegexCore l = true ↔
      ((l.count '@' == 1) && !(l.takeWhile (fun c => c ≠ '@')).isEmpty &&
        !((l.dropWhile (fun c => c ≠ '@')).drop 1).isEmpty &&
        (l.takeWhile (fun c => c ≠ '@')).all (fun c => !(jsWhitespace c)) &&
        ((l.dropWhile (fun c => c ≠ '@')).drop 1).all (fun c => !(jsWhitespace c)) &&
        hasInteriorDot ((l.dropWhile (fun c => c ≠ '@')).drop 1)) = true := by
  have hsplit := List.takeWhile_append_dropWhile isGoodChar l
  have hA : ∀ x ∈ l.takeWhile isGoodChar, isGoodChar x = true :=
    fun x hx => List.mem_takeWhile_imp hx
  cases hr : l.dropWhile isGoodChar with
  | nil =>
    have hteq : l.takeWhile isGoodChar = l := by
      rw [hr] at hsplit; simpa using hsplit
    have hgood : ∀ c ∈ l, isGoodChar c = true := by
      intro c hcm; rw [← hteq] at hcm; exact List.mem_takeWhile_imp hcm
    have hnoat : '@' ∉ l := by
      intro hm
      have := hgood '@' hm
      simp [isGoodChar] at this
    have hcount : l.count '@' = 0 := List.count_eq_zero.mpr hnoat
    simp [emailRegexCore, hr, hcount]
  | cons c rest =>
    have hc : isGoodChar c = false := dropWhile_head_false hr
    have hleq : l.takeWhile isGoodChar ++ c :: rest = l := by rw [← hr]; exact hsplit
    have hAat : ∀ x ∈ l.takeWhile isGoodChar, (fun c => decide (c ≠ '@')) x = true := by
      intro x hx
      have := hA x hx
      simp only [isGoodChar, Bool.and_eq_true, decide_eq_true_eq] at this
      simp [this.2]
    have hAnoat : '@' ∉ l.takeWhile isGoodChar := by
      intro hm
      have := hA '@' hm
      simp [isGoodChar] at this
    by_cases hat : c = '@'
    · subst hat
      have hloc : l.takeWhile (fun c => c ≠ '@') = l.takeWhile isGoodChar := by
        conv_lhs => rw [← hleq]
        rw [List.takeWhile_append_of_pos hAat, List.takeWhile_cons_of_neg (by simp)]
        simp
      have hdw : l.dropWhile (fun c => c ≠ '@') = '@' :: rest := by
        conv_lhs => rw [← hleq]
        rw [List.dropWhile_append_of_pos hAat, List.dropWhile_cons_of_neg (by simp)]
      have hcount : l.count '@' = rest.count '@' + 1 := by
        rw [← hleq, List.count_append, List.count_cons_self,
            List.count_eq_zero.mpr hAnoat]
        omega
      simp only [emailRegexCore, hr, hloc, hdw, hcount, List.drop_succ_cons, List.drop_zero]
      have e4 : (List.takeWhile isGoodChar l).all (fun c => !(jsWhitespace c)) = true := by
        rw [List.all_eq_true]
        intro x hx
        have := hA x hx
        simp only [isGoodChar, Bool.and_eq_true] at this
        exact this.1
      rw [e4]
      simp only [Bool.and_true, Bool.true_and, Bool.and_eq_true, beq_iff_eq,
        List.all_eq_true, Bool.not_eq_true']
      constructor
      · rintro ⟨⟨hAne, hgood⟩, hint⟩
        have hnoat : '@' ∉ rest := fun hm => by
          have := hgood '@' hm
          simp [isGoodChar] at this
        have hc0 : List.count '@' rest = 0 := List.count_eq_zero.mpr hnoat
        have hrne : rest.isEmpty = false := by
          cases rest with
          | nil => simp [hasInteriorDot] at hint
          | cons a t => rfl
        refine ⟨⟨⟨⟨by omega, hAne⟩, hrne⟩, ?_⟩, hint⟩
        intro x hx
        have := hgood x hx
        simp only [isGoodChar, Bool.and_eq_true, Bool.not_eq_true'] at this
        exact this.1
      · rintro ⟨⟨⟨⟨hc1, hAne⟩, hrne⟩, hnw⟩, hint⟩
        have hnoat : '@' ∉ rest := List.count_eq_zero.mp (by omega)
        refine ⟨⟨hAne, ?_⟩, hint⟩
        intro x hx
        simp only [isGoodChar, Bool.and_eq_true, Bool.not_eq_true', decide_eq_true_eq]
        exact ⟨hnw x hx, fun hxe => hnoat (hxe ▸ hx)⟩
    · have hws : jsWhitespace c = true := by
        simp [isGoodChar, hat] at hc
        simpa using hc
      have hlhs : emailRegexCore l = false := by
        simp only [emailRegexCore, hr]
        split
        · rename_i dom heq
          cases heq
          exact absurd rfl hat
        · rfl
      have hcl : c ∈ l.takeWhile (fun c => c ≠ '@') := by
        rw [← hleq, List.takeWhile_append_of_pos hAat]
        refine List.mem_append_right _ ?_
        rw [List.takeWhile_cons_of_pos (by simp [hat])]
        exact List.mem_cons_self _ _
      have hallf : (l.takeWhile (fun c => c ≠ '@')).all (fun c => !(jsWhitespace c)) = false := by
        rw [Bool.eq_false_iff]
        intro hall
        have := List.all_eq_true.mp hall c hcl
        simp [hws] at this
      rw [hlhs, hallf]
      simp

lemma dropWhile_dropWhile {α : Type} (p : α → Bool) (l : List α) :
    (l.dropWhile p).dropWhile p = l.dropWhile p := by
  induction l with
  | nil => rfl
  | cons a t ih =>
    rw [List.dropWhile_cons]
    split
    · exact ih
    · exact List.dropWhile_cons_of_neg (by assumption)

lemma dropWhile_append_single {α : Type} (p : α → Bool) (a : α) (ha : p a = false)
    (ys : List α) : ∃ zs, (ys ++ [a]).dropWhile p = zs ++ [a] := by
  induction ys with
  | nil =>
    refine ⟨[], ?_⟩
    rw [List.nil_append]
    exact List.dropWhile_cons_of_neg (by simp [ha])
  | cons y t ih =>
    rw [List.cons_append, List.dropWhile_cons]
    split
    · exact ih
    · exact ⟨y :: t, rfl⟩

lemma trimCore_idem (p : Char → Bool) (l : List Char) :
    ((((((l.dropWhile p).reverse.dropWhile p).reverse).dropWhile p).reverse).dropWhile p).reverse
      = ((l.dropWhile p).reverse.dropWhile p).reverse := by
  cases hm : l.dropWhile p with
  | nil => simp [hm]
  | cons a m =>
    have hpa : p a = false := dropWhile_head_false hm
    obtain ⟨zs, hzs⟩ := dropWhile_append_single p a hpa m.reverse
    rw [← hm]
    have h1 : (l.dropWhile p).reverse.dropWhile p = zs ++ [a] := by
      rw [hm, List.reverse_cons, hzs]
    have h2 : ((l.dropWhile p).reverse.dropWhile p).reverse = a :: zs.reverse := by
      rw [h1]; simp
    rw [h2, List.dropWhile_cons_of_neg (by simp [hpa])]
    have h3 : (a :: zs.reverse).reverse = zs ++ [a] := by simp
    rw [h3, ← h1, dropWhile_dropWhile, h1]
    simp

lemma jsTrim_idem (s : String) : jsTrim (jsTrim s) = jsTrim s := by
  unfold jsTrim
  exact congrArg String.mk (trimCore_idem jsWhitespace s.data)

lemma jsTrim_of_all_ws {s : String} (hw : s.data.all jsWhitespace = true) :
    jsTrim s = "" := by
  unfold jsTrim
  have h1 : s.data.dropWhile jsWhitespace = [] :=
    List.dropWhile_eq_nil_iff.mpr (fun x hx => List.all_eq_true.mp hw x hx)
  rw [h1]
  rfl

lemma validateTicket_nil_parts {b : Submission} (hv : validateTicket b = []) :
    truthy b.firstName = true ∧ truthy b.lastName = true ∧
    (truthy b.email && emailRegexMatch (jsToString b.email)) = true ∧
    ticketIncludes b.ticketType = true ∧ quantityOk b.quantity = true := by
  simp only [validateTicket, List.append_eq_nil] at hv
  obtain ⟨⟨⟨⟨h1, h2⟩, h3⟩, h4⟩, h5⟩ := hv
  refine ⟨?_, ?_, ?_, ?_, ?_⟩
  · by_contra hP; rw [if_neg hP] at h1; simp at h1
  · by_contra hP; rw [if_neg hP] at h2; simp at h2
  · by_contra hP; rw [if_neg hP] at h3; simp at h3
  · by_contra hP; rw [if_neg hP] at h4; simp at h4
  · by_contra hP; rw [if_neg hP] at h5; simp at h5

lemma ifNil (P : Prop) [Decidable P] (m : String) :
    ((if P then ([] : List String) else [m]) = []) ↔ P := by
  split
  · simpa
  · simpa

lemma validateTicket_nil_iff (b : Submission) :
    validateTicket b = [] ↔
      (truthy b.firstName = true ∧ truthy b.lastName = true ∧
       (truthy b.email && emailRegexMatch (jsToString b.email)) = true ∧
       ticketIncludes b.ticketType = true ∧ quantityOk b.quantity = true) := by
  constructor
  · exact validateTicket_nil_parts
  · rintro ⟨p1, p2, p3, p4, p5⟩
    simp [validateTicket, p1, p2, p3, p4, p5]

lemma validateTicketV_nil_iff (b : Submission) :
    validateTicketV b = [] ↔
      ((truthy b.firstName && isStringPrim b.firstName) = true ∧
       (truthy b.lastName && isStringPrim b.lastName) = true ∧
       (truthy b.email && isStringPrim b.email && emailTestV b.email) = true ∧
       (truthy b.ticketType && ticketIncludes b.ticketType) = true ∧
       quantityOkV b.quantity = true) := by
  simp only [validateTicketV, List.append_eq_nil, ifNil]
  tauto

lemma truthyStr_iff {p : JsPrim} (h : strOrNullish p) :
    (truthy p = true) ↔ ((truthy p && isStringPrim p) = true) := by
  rcases h with ⟨s, rfl⟩ | rfl | rfl <;> simp [truthy, isStringPrim]

lemma emailCond_iff {p : JsPrim} (h : strOrNullish p) :
    ((truthy p && emailRegexMatch (jsToString p)) = true) ↔
      ((truthy p && isStringPrim p && emailTestV p) = true) := by
  rcases h with ⟨s, rfl⟩ | rfl | rfl <;>
    simp [truthy, isStringPrim, jsToString, emailTestV]

lemma ticketIncludes_truthy {p : JsPrim} (h : ticketIncludes p = true) :
    truthy p = true := by
  cases p with
  | str s =>
    have hne : s ≠ "" := by
      rintro rfl
      revert h
      decide
    simp [truthy, hne]
  | undefined => simp [ticketIncludes] at h
  | null => simp [ticketIncludes] at h
  | bool b => simp [ticketIncludes] at h
  | num n => simp [ticketIncludes] at h

lemma ticketCond_iff (p : JsPrim) :
    (ticketIncludes p = true) ↔ ((truthy p && ticketIncludes p) = true) := by
  constructor
  · intro h
    simp [h, ticketIncludes_truthy h]
  · intro h
    simp only [Bool.and_eq_true] at h
    exact h.2

lemma qtyCond_iff {p : JsPrim} (h : numOrNullish p) :
    quantityOk p = quantityOkV p := by
  rcases h with ⟨n, rfl⟩ | rfl | rfl
  · cases n with
    | finite q =>
      by_cases hq1 : q < 1 <;> by_cases hq2 : q > 20 <;>
        simp [quantityOk, quantityOkV, toNumber, isFiniteNum, numLtQ, numGtQ,
          numGeQ, numLeQ, hq1, hq2, not_lt, le_of_not_lt, le_of_lt]
    | nan => rfl
    | inf => rfl
    | negInf => rfl
  · with_unfolding_all decide
  · with_unfolding_all decide

/-- C1: whenever any of the five validated fields is missing or violates its rule, `POST /api/tickets` answers 400 with body `{message, errors}` where `message` is `Validation failed` and `errors` holds exactly one message per violated rule, in the stable field order firstName, lastName, email, ticketType, quantity; a missing field always violates its rule. -/
theorem c1_ordered_errors (b : Submission) (st : List CreateInput)
    (h : checkFirstName b ≠ none ∨ checkLastName b ≠ none ∨ checkEmail b ≠ none ∨
         checkTicketType b ≠ none ∨ checkQuantity b ≠ none) :
    (postTickets b st).1 = .badRequest "Validation failed" (validateTicket b) ∧
    (postTickets b st).1.statusCode = 400 ∧
    validateTicket b = [checkFirstName b, checkLastName b, checkEmail b,
      checkTicketType b, checkQuantity b].filterMap id ∧
    (b.firstName = .undefined → checkFirstName b ≠ none) ∧
    (b.lastName = .undefined → checkLastName b ≠ none) ∧
    (b.email = .undefined → checkEmail b ≠ none) ∧
    (b.ticketType = .undefined → checkTicketType b ≠ none) ∧
    (b.quantity = .undefined → checkQuantity b ≠ none) := by
  have heq := validateTicket_eq_filterMap b
  have hne : validateTicket b ≠ [] := by
    rw [heq]
    rcases h with h | h | h | h | h <;>
      [rcases Option.ne_none_iff_exists.mp h with ⟨m, hm⟩;
       rcases Option.ne_none_iff_exists.mp h with ⟨m, hm⟩;
       rcases Option.ne_none_iff_exists.mp h with ⟨m, hm⟩;
       rcases Option.ne_none_iff_exists.mp h with ⟨m, hm⟩;
       rcases Option.ne_none_iff_exists.mp h with ⟨m, hm⟩] <;>
    · refine List.ne_nil_of_mem (a := m) (List.mem_filterMap.mpr ?_)
      exact ⟨some m, by simp [← hm]⟩
  have hsc := postTickets_of_errors b st hne
  refine ⟨by rw [hsc], by rw [hsc]; rfl, heq, ?_, ?_, ?_, ?_, ?_⟩
  · intro hu; simp [checkFirstName, truthy, hu]
  · intro hu; simp [checkLastName, truthy, hu]
  · intro hu; simp [checkEmail, truthy, hu]
  · intro hu; simp [checkTicketType, ticketIncludes, hu]
  · intro hu; simp [checkQuantity, quantityOk, toNumber, isFiniteNum, hu]

/-- C1 witness: the theorem applied to the all-absent submission. -/
theorem c1_ordered_errors_witness :
    (checkFirstName subAllUndef ≠ none ∨ checkLastName subAllUndef ≠ none ∨
     checkEmail subAllUndef ≠ none ∨ checkTicketType subAllUndef ≠ none ∨
     checkQuantity subAllUndef ≠ none) ∧
    ((postTickets subAllUndef []).1 =
        .badRequest "Validation failed" (validateTicket subAllUndef) ∧
      (postTickets subAllUndef []).1.statusCode = 400 ∧
      validateTicket subAllUndef = [checkFirstName subAllUndef, checkLastName subAllUndef,
        checkEmail subAllUndef, checkTicketType subAllUndef,
        checkQuantity subAllUndef].filterMap id ∧
      (subAllUndef.firstName = .undefined → checkFirstName subAllUndef ≠ none) ∧
      (subAllUndef.lastName = .undefined → checkLastName subAllUndef ≠ none) ∧
      (subAllUndef.email = .undefined → checkEmail subAllUndef ≠ none) ∧
      (subAllUndef.ticketType = .undefined → checkTicketType subAllUndef ≠ none) ∧
      (subAllUndef.quantity = .undefined → checkQuantity subAllUndef ≠ none)) :=
  ⟨Or.inl (by decide), c1_ordered_errors subAllUndef [] (Or.inl (by decide))⟩

/-- C2 counterexample: the validator accepts the non-integral quantity 3/2, refuting the claim that every non-integer quantity is rejected. -/
theorem c2_nonintegral_accepted :
    quantityOk (.num (.finite (3/2))) = true ∧ (3/2 : ℚ).den ≠ 1 := by
  with_unfolding_all decide

/-- C2 amended: the validator accepts a finite numeric quantity exactly when 1 <= q <= 20 - integrality is not checked; 1 and 20 are accepted, 0 and 21 rejected. -/
theorem c2_range_no_integrality :
    (∀ r : ℚ, quantityOk (.num (.finite r)) = true ↔ 1 ≤ r ∧ r ≤ 20) ∧
    quantityOk (.num (.finite 1)) = true ∧ quantityOk (.num (.finite 20)) = true ∧
    quantityOk (.num (.finite 0)) = false ∧ quantityOk (.num (.finite 21)) = false := by
  refine ⟨fun r => ?_, ?_, ?_, ?_, ?_⟩
  · simp only [quantityOk, toNumber, isFiniteNum, numLtQ, numGtQ, Bool.true_and,
      Bool.and_eq_true, Bool.not_eq_true', decide_eq_false_iff_not, not_lt, gt_iff_lt]
  all_goals with_unfolding_all decide

/-- C3 counterexample: the string `a@b.` satisfies the claim's acceptance condition (one `@`, non-whitespace sides, a dot in the domain) but the code's regex rejects it. -/
theorem c3_dot_position_cex :
    specEmailClaim "a@b." = true ∧ emailRegexMatch "a@b." = false := by decide

/-- C3 amended: the regex accepts exactly the strings with one `@`, nonempty all-non-whitespace local and domain parts, and a domain dot that is neither the domain's first nor last character; the spec's concrete examples behave as stated. -/
theorem c3_email_shape :
    (∀ s : String, emailRegexMatch s = true ↔ specEmailAmended s = true) ∧
    emailRegexMatch "foo" = false ∧ emailRegexMatch "foo@" = false ∧
    emailRegexMatch "@bar.com" = false ∧ emailRegexMatch "a@b.co" = true := by
  refine ⟨fun s => ?_, by decide, by decide, by decide, by decide⟩
  exact emailCore_main s.data

/-- C4 counterexample: `escape` renders a null field as the empty string, not as the two-character quoted field. -/
theorem c4_null_not_quoted :
    escape JsPrim.null = "" ∧ escape JsPrim.null ≠ "\"\"" := by decide

/-- C4 amended: every non-nullish field value is wrapped in double quotes, embedded quotes are doubled (the He-said example renders as claimed), and a missing or null value renders as the empty unquoted field. -/
theorem c4_quoting :
    (∀ p : JsPrim, p ≠ .undefined → p ≠ .null →
      ∃ body, escape p = "\"" ++ body ++ "\"") ∧
    escape (.str "He said \"hi\"") = "\"He said \"\"hi\"\"\"" ∧
    escape .null = "" ∧ escape .undefined = "" := by
  refine ⟨fun p h1 h2 => ?_, by decide, by decide, by decide⟩
  match p, h1, h2 with
  | .bool b, _, _ => exact ⟨_, rfl⟩
  | .num n, _, _ => exact ⟨_, rfl⟩
  | .str s, _, _ => exact ⟨_, rfl⟩

/-- C4 witness: the quoting shape at a concrete string value. -/
theorem c4_quoting_witness :
    ∃ body, escape (.str "x") = "\"" ++ body ++ "\"" :=
  c4_quoting.1 (.str "x") (by decide) (by decide)

/-- C5: the CSV export of no records is exactly the fixed header line, and in general the document is the header followed by one newline-prefixed row per record with no trailing blank line (rows are never empty). -/
theorem c5_csv_layout :
    csvExport [] = "createdAt,firstName,lastName,email,ticketType,quantity,notes" ∧
    (∀ docs : List TicketDoc, csvExport docs =
      (docs.map csvRow).foldl (fun acc r => acc ++ "\n" ++ r)
        "createdAt,firstName,lastName,email,ticketType,quantity,notes") ∧
    (∀ t : TicketDoc, csvRow t ≠ "") := by
  have hh : jsJoin "," csvHeaderFields =
      "createdAt,firstName,lastName,email,ticketType,quantity,notes" := by decide
  refine ⟨by decide, fun docs => ?_, fun t hrow => ?_⟩
  · rw [csvExport, jsJoin_cons_foldl, hh]
  · have := csvRow_mem_comma t
    rw [hrow] at this
    exact absurd this (by decide)

/-- C6 counterexample: for a valid submission with email `A@B.co`, the record passed to `Ticket.create` carries the trimmed but not lower-cased email. -/
theorem c6_email_not_lowercased :
    validateTicket subValidUpperEmail = [] ∧
    (buildCreateInput subValidUpperEmail).map CreateInput.email = some "A@B.co" ∧
    String.toLower (jsTrim "A@B.co") = "a@b.co" ∧
    (buildCreateInput subValidUpperEmail).map CreateInput.email ≠ some "a@b.co" := by
  with_unfolding_all decide

/-- C6 amended: for a valid submission, the record passed to the store has trimmed firstName, lastName, notes and email and a finite numeric quantity; the lower-casing of email is applied by the store's schema setters, not by the handler. -/
theorem c6_normalized_record (b : Submission) (r : CreateInput)
    (hv : validateTicket b = []) (hr : buildCreateInput b = some r) :
    (∀ fn, b.firstName = .str fn → r.firstName = jsTrim fn) ∧
    (∀ ln, b.lastName = .str ln → r.lastName = jsTrim ln) ∧
    (∀ em, b.email = .str em → r.email = jsTrim em ∧
      (schemaApply r).email = String.toLower (jsTrim em)) ∧
    (∀ nt, b.notes = .str nt → r.notes = jsTrim nt) ∧
    ((b.notes = .undefined ∨ b.notes = .null) → r.notes = "") ∧
    r.ticketType = b.ticketType ∧
    r.quantity = toNumber b.quantity ∧ isFiniteNum r.quantity = true := by
  have hq := (validateTicket_nil_parts hv).2.2.2.2
  simp only [buildCreateInput] at hr
  cases h1 : trimStringPrim b.firstName with
  | none => rw [h1] at hr; simp at hr
  | some fn0 =>
  cases h2 : trimStringPrim b.lastName with
  | none => rw [h1, h2] at hr; simp at hr
  | some ln0 =>
  cases h3 : trimStringPrim b.email with
  | none => rw [h1, h2, h3] at hr; simp at hr
  | some em0 =>
  cases h4 : trimStringPrim (coalesceNotes b.notes) with
  | none => rw [h1, h2, h3, h4] at hr; simp at hr
  | some nt0 =>
  rw [h1, h2, h3, h4] at hr
  simp only [Option.some.injEq] at hr
  subst hr
  refine ⟨?_, ?_, ?_, ?_, ?_, rfl, rfl, ?_⟩
  · intro fn hfn
    rw [hfn] at h1
    simp only [trimStringPrim, Option.some.injEq] at h1
    simp [h1]
  · intro ln hln
    rw [hln] at h2
    simp only [trimStringPrim, Option.some.injEq] at h2
    simp [h2]
  · intro em hem
    rw [hem] at h3
    simp only [trimStringPrim, Option.some.injEq] at h3
    constructor
    · simp [h3]
    · simp only [schemaApply]
      rw [← h3, jsTrim_idem]
  · intro nt hnt
    rw [hnt] at h4
    simp only [coalesceNotes, trimStringPrim, Option.some.injEq] at h4
    simp [h4]
  · intro hnul
    rcases hnul with hnul | hnul <;>
    · rw [hnul] at h4
      simp only [coalesceNotes, trimStringPrim, Option.some.injEq] at h4
      rw [← h4]
      rfl
  · simp only [quantityOk, Bool.and_eq_true] at hq
    exact hq.1.1

/-- C6 witness: the theorem applied to a concrete valid submission. -/
theorem c6_normalized_record_witness :
    (validateTicket subValid = [] ∧ buildCreateInput subValid = some subValidRec) ∧
    ((∀ fn, subValid.firstName = .str fn → subValidRec.firstName = jsTrim fn) ∧
     (∀ ln, subValid.lastName = .str ln → subValidRec.lastName = jsTrim ln) ∧
     (∀ em, subValid.email = .str em → subValidRec.email = jsTrim em ∧
       (schemaApply subValidRec).email = String.toLower (jsTrim em)) ∧
     (∀ nt, subValid.notes = .str nt → subValidRec.notes = jsTrim nt) ∧
     ((subValid.notes = .undefined ∨ subValid.notes = .null) → subValidRec.notes = "") ∧
     subValidRec.ticketType = subValid.ticketType ∧
     subValidRec.quantity = toNumber subValid.quantity ∧
     isFiniteNum subValidRec.quantity = true) :=
  ⟨⟨by with_unfolding_all decide, by with_unfolding_all decide⟩,
   c6_normalized_record subValid subValidRec (by with_unfolding_all decide)
     (by with_unfolding_all decide)⟩

/-- C7 counterexample: the health body's keys are `ok` and `mongo`; there is no `store` key. -/
theorem c7_health_key_cex :
    (healthBody 1).map Prod.fst = ["ok", "mongo"] ∧
    "store" ∉ (healthBody 1).map Prod.fst := by decide

/-- C7 amended: `GET /api/health` always answers 200 with body whose keys are `ok` (the literal true) and `mongo`, a boolean reflecting store connectivity (`readyState === 1`); the handler is a pure function of the connection state. -/
theorem c7_health (rs : Nat) :
    healthStatusCode = 200 ∧
    (healthBody rs).map Prod.fst = ["ok", "mongo"] ∧
    (healthBody rs).lookup "ok" = some (.bool true) ∧
    (healthBody rs).lookup "mongo" = some (.bool (rs == 1)) ∧
    ((rs == 1) = true ↔ rs = 1) := by
  refine ⟨rfl, rfl, rfl, ?_, by simp⟩
  simp [healthBody, List.lookup]

/-- C8: on any validation failure the handler answers 400 with only the message and error list, and the store is unchanged - no record is written and no normalized data accompanies the errors. -/
theorem c8_store_unchanged (b : Submission) (st : List CreateInput)
    (h : validateTicket b ≠ []) :
    postTickets b st = (.badRequest "Validation failed" (validateTicket b), st) :=
  postTickets_of_errors b st h

/-- C8 witness: the theorem applied to the all-absent submission and the empty store. -/
theorem c8_store_unchanged_witness :
    validateTicket subAllUndef ≠ [] ∧
    postTickets subAllUndef [] =
      (.badRequest "Validation failed" (validateTicket subAllUndef), []) :=
  ⟨by decide, c8_store_unchanged subAllUndef [] (by decide)⟩

/-- C9 counterexample: a whitespace-only firstName or lastName passes validation (no 400); the request ends in a 500 from the store and nothing is written. -/
theorem c9_ws_name_cex :
    (validateTicket subWsFirstName = [] ∧
     (postTickets subWsFirstName []).1.statusCode = 500 ∧
     (postTickets subWsFirstName []).1.statusCode ≠ 400 ∧
     (postTickets subWsFirstName []).2 = []) ∧
    (validateTicket subWsLastName = [] ∧
     (postTickets subWsLastName []).1.statusCode = 500 ∧
     (postTickets subWsLastName []).1.statusCode ≠ 400 ∧
     (postTickets subWsLastName []).2 = []) := by
  with_unfolding_all decide

/-- C9 amended: a whitespace-only firstName raises no firstName validation error and a whitespace-only lastName raises no lastName validation error (only raw truthiness is checked); in either case, if the rest of the submission is valid the empty-after-trim value is rejected by the store schema, yielding a 500 with the store unchanged. -/
theorem c9_ws_name (b : Submission) (s : String)
    (hs : s ≠ "") (hw : s.data.all jsWhitespace = true) (st : List CreateInput) :
    (b.firstName = .str s →
      "firstName is required" ∉ validateTicket b ∧
      (validateTicket b = [] → postTickets b st = (.serverError "Error saving ticket", st))) ∧
    (b.lastName = .str s →
      "lastName is required" ∉ validateTicket b ∧
      (validateTicket b = [] → postTickets b st = (.serverError "Error saving ticket", st))) := by
  have hone : ∀ (c : Prop) [Decidable c] (m m' : String), m ≠ m' →
      m' ∈ (if c then ([] : List String) else [m]) → False := by
    intro c hc m m' hne hm
    split at hm
    · simp at hm
    · simp at hm
      exact hne hm.symm
  have hts : jsTrim s = "" := jsTrim_of_all_ws hw
  have htsp : trimStringPrim (JsPrim.str s) = some "" := by
    simp [trimStringPrim, hts]
  constructor
  · intro hb
    have htr : truthy b.firstName = true := by
      rw [hb]
      simpa [truthy] using hs
    constructor
    · intro hmem
      simp only [validateTicket, htr, if_true, List.nil_append, List.mem_append] at hmem
      rcases hmem with ((h | h) | h) | h
      · exact hone _ _ _ (by decide) h
      · exact hone _ _ _ (by decide) h
      · exact hone _ _ _ (by decide) h
      · exact hone _ _ _ (by decide) h
    · intro hv
      have hie : (validateTicket b).isEmpty = true := by rw [hv]; rfl
      cases hbi : buildCreateInput b with
      | none => simp [postTickets, hie, hbi]
      | some r =>
        have hrf : r.firstName = "" := by
          simp only [buildCreateInput, hb, htsp] at hbi
          cases h2 : trimStringPrim b.lastName with
          | none => rw [h2] at hbi; simp at hbi
          | some ln0 =>
          cases h3 : trimStringPrim b.email with
          | none => rw [h2, h3] at hbi; simp at hbi
          | some em0 =>
          cases h4 : trimStringPrim (coalesceNotes b.notes) with
          | none => rw [h2, h3, h4] at hbi; simp at hbi
          | some nt0 =>
          rw [h2, h3, h4] at hbi
          simp only [Option.some.injEq] at hbi
          rw [← hbi]
        have hsaf : (schemaApply r).firstName = "" := by
          simp [schemaApply, hrf]
          rfl
        have hsv : storeValidate (schemaApply r) = false := by
          simp [storeValidate, hsaf]
        simp [postTickets, hie, hbi, hsv]
  · intro hb
    have htr : truthy b.lastName = true := by
      rw [hb]
      simpa [truthy] using hs
    constructor
    · intro hmem
      simp only [validateTicket, htr, if_true, List.append_nil, List.nil_append,
        List.mem_append] at hmem
      rcases hmem with ((h | h) | h) | h
      · exact hone _ _ _ (by decide) h
      · exact hone _ _ _ (by decide) h
      · exact hone _ _ _ (by decide) h
      · exact hone _ _ _ (by decide) h
    · intro hv
      have hie : (validateTicket b).isEmpty = true := by rw [hv]; rfl
      cases hbi : buildCreateInput b with
      | none => simp [postTickets, hie, hbi]
      | some r =>
        have hrl : r.lastName = "" := by
          simp only [buildCreateInput, hb, htsp] at hbi
          cases h1 : trimStringPrim b.firstName with
          | none => rw [h1] at hbi; simp at hbi
          | some fn0 =>
          cases h3 : trimStringPrim b.email with
          | none => rw [h1, h3] at hbi; simp at hbi
          | some em0 =>
          cases h4 : trimStringPrim (coalesceNotes b.notes) with
          | none => rw [h1, h3, h4] at hbi; simp at hbi
          | some nt0 =>
          rw [h1, h3, h4] at hbi
          simp only [Option.some.injEq] at hbi
          rw [← hbi]
        have hsal : (schemaApply r).lastName = "" := by
          simp [schemaApply, hrl]
          rfl
        have hsv : storeValidate (schemaApply r) = false := by
          simp [storeValidate, hsal]
        simp [postTickets, hie, hbi, hsv]

/-- C9 witness: the theorem applied to the concrete whitespace-firstName and whitespace-lastName submissions. -/
theorem c9_ws_name_witness :
    (("   " : String) ≠ "" ∧ "   ".data.all jsWhitespace = true) ∧
    ((subWsFirstName.firstName = .str "   " →
        "firstName is required" ∉ validateTicket subWsFirstName ∧
        (validateTicket subWsFirstName = [] →
          postTickets subWsFirstName [] = (.serverError "Error saving ticket", []))) ∧
     (subWsFirstName.lastName = .str "   " →
        "lastName is required" ∉ validateTicket subWsFirstName ∧
        (validateTicket subWsFirstName = [] →
          postTickets subWsFirstName [] = (.serverError "Error saving ticket", [])))) ∧
    ((subWsLastName.firstName = .str "   " →
        "firstName is required" ∉ validateTicket subWsLastName ∧
        (validateTicket subWsLastName = [] →
          postTickets subWsLastName [] = (.serverError "Error saving ticket", []))) ∧
     (subWsLastName.lastName = .str "   " →
        "lastName is required" ∉ validateTicket subWsLastName ∧
        (validateTicket subWsLastName = [] →
          postTickets subWsLastName [] = (.serverError "Error saving ticket", [])))) :=
  ⟨⟨by decide, by decide⟩,
   c9_ws_name subWsFirstName "   " (by decide) (by decide) [],
   c9_ws_name subWsLastName "   " (by decide) (by decide) []⟩


/-- C10 counterexample: on a quantity given as the string 5 the server.js validator accepts (via `Number()` coercion) while the variant rejects, so the two validators differ. -/
theorem c10_divergence_cex :
    validateTicket subStrQuantity = [] ∧
    validateTicketV subStrQuantity = ["quantity must be 1â€“20"] ∧
    validateTicket subStrQuantity ≠ validateTicketV subStrQuantity := by
  with_unfolding_all decide

/-- C10 amended: the two validators accept exactly the same submissions whenever the text fields are strings, null or absent and quantity is a number, null or absent; even then their quantity error texts differ byte-wise (mojibaked dash), and outside this domain they disagree. -/
theorem c10_validators_agree (b : Submission)
    (h1 : strOrNullish b.firstName) (h2 : strOrNullish b.lastName)
    (h3 : strOrNullish b.email) (h4 : numOrNullish b.quantity) :
    (validateTicket b = [] ↔ validateTicketV b = []) ∧
    ("quantity must be 1–20" : String) ≠ "quantity must be 1â€“20" := by
  refine ⟨?_, by decide⟩
  rw [validateTicket_nil_iff, validateTicketV_nil_iff]
  rw [truthyStr_iff h1, truthyStr_iff h2, emailCond_iff h3, ticketCond_iff,
    qtyCond_iff h4]

/-- C10 witness: the theorem applied to a concrete valid submission. -/
theorem c10_validators_agree_witness :
    (validateTicket subValid = [] ↔ validateTicketV subValid = []) ∧
    ("quantity must be 1–20" : String) ≠ "quantity must be 1â€“20" :=
  c10_validators_agree subValid (Or.inl ⟨"Jane", rfl⟩) (Or.inl ⟨"Doe", rfl⟩)
    (Or.inl ⟨"a@b.co", rfl⟩) (Or.inl ⟨.finite 2, rfl⟩)
